import Mathlib

/-!
Verification of `source/server/backtrace.h` (class `Envoy::BackwardsTrace`).

The component captures a bounded snapshot of the current call stack and
renders it, symbol-resolved, to the log.  The stack-walk primitive
(`absl::GetStackTrace` / `absl::GetStackTraceWithContext`) and the symbol
resolver (`absl::Symbolize`) are external collaborators; they are modelled
here by their documented contracts: the raw stack walk of the calling
context is a list of return addresses, innermost frame first, whose head
is the frame for the call to `capture()` itself, and the resolver is a
function from an address to an optional symbol string.  Log emission is
modelled as the list of emitted lines.
-/

namespace Envoy

/-- A raw program-counter address: an opaque bit pattern, never
dereferenced, only handed to the resolver and printed. -/
abbrev Addr := Nat

/-- `static constexpr int MaxStackDepth = 64;` -/
def MaxStackDepth : Nat := 64

/-- The state of a `BackwardsTrace` object: the fixed-capacity frame
buffer `void* stack_trace_[MaxStackDepth]` (modelled as a total map from
slot index to the address stored there; `capture` only ever writes slots
below `MaxStackDepth`) and `int stack_depth_`. -/
structure BackwardsTrace where
  stack_trace_ : Nat → Addr
  stack_depth_ : Int

/-- The constructor `BackwardsTrace() {}`: `stack_depth_` has initializer
`{0}`; the frame buffer starts as arbitrary garbage `g`. -/
def mkTrace (g : Nat → Addr) : BackwardsTrace :=
  { stack_trace_ := g, stack_depth_ := 0 }

/-- Modelled from the spec: the external stack-walk collaborator
(`absl::GetStackTrace`).  Given the raw walk `ctx` of the calling context
(innermost frame first, head = the frame for the call into the capturing
function), it records the frames after skipping `skipCount` of them,
capped at `maxDepth`, and reports how many it stored. -/
def getStackTrace (maxDepth skipCount : Nat) (ctx : List Addr) : List Addr :=
  (ctx.drop skipCount).take maxDepth

/-- Modelled from the spec: `absl::GetStackTraceWithContext` walks the
stack encoded in a caller-supplied execution context instead of the live
stack; same skipping and capping behaviour. -/
def getStackTraceWithContext (maxDepth skipCount : Nat) (context : List Addr) : List Addr :=
  (context.drop skipCount).take maxDepth

/-- Overwriting the first `fs.length` slots of the frame buffer with the
freshly recorded frames; slots beyond keep their old (stale) contents,
exactly as the C array does. -/
def writeFrames (old : Nat → Addr) (fs : List Addr) : Nat → Addr :=
  fun i => if h : i < fs.length then fs.get ⟨i, h⟩ else old i

/-- `capture()`: `stack_depth_ = absl::GetStackTrace(stack_trace_,
MaxStackDepth, /* skip_count = */ 1);`.  `ctx` is the raw walk of the
calling context (its head is the frame for the `capture()` call, which
the skip count of one excludes). -/
def capture (ctx : List Addr) (t : BackwardsTrace) : BackwardsTrace :=
  let fs := getStackTrace MaxStackDepth 1 ctx
  { stack_trace_ := writeFrames t.stack_trace_ fs,
    stack_depth_ := (fs.length : Int) }

/-- `captureFrom(context)`: `stack_depth_ = absl::GetStackTraceWithContext(
stack_trace_, MaxStackDepth, 1, context, nullptr);` where `context` is the
stack encoded in the supplied execution context. -/
def captureFrom (context : List Addr) (t : BackwardsTrace) : BackwardsTrace :=
  let fs := getStackTraceWithContext MaxStackDepth 1 context
  { stack_trace_ := writeFrames t.stack_trace_ fs,
    stack_depth_ := (fs.length : Int) }

/-- The line `ENVOY_LOG(critical, "#{}: {}", i, out)` printed on
successful symbolization of frame `i`. -/
def symLine (i : Nat) (out : String) : String :=
  "#" ++ toString i ++ ": " ++ out

/-- The line `ENVOY_LOG(critical, "#{}: {}", i, stack_trace_[i])` printed
when symbolization of frame `i` fails. -/
def addrLine (i : Nat) (a : Addr) : String :=
  "#" ++ toString i ++ ": " ++ toString a

/-- One iteration of the `logTrace` loop body: symbolize `stack_trace_[i]`
and print either the resolved name or the raw address. -/
def frameLine (resolve : Addr → Option String) (t : BackwardsTrace) (i : Nat) : String :=
  match resolve (t.stack_trace_ i) with
  | some out => symLine i out
  | none => addrLine i (t.stack_trace_ i)

/-- The slot indices the `logTrace` loop `for (int i = 0; i < stack_depth_;
++i)` reads from the frame buffer (empty when `stack_depth_ <= 0`). -/
def renderedIndices (t : BackwardsTrace) : List Nat :=
  List.range t.stack_depth_.toNat

/-- `logTrace()`: the header line, then one line per frame index in
`[0, stack_depth_)`, resolved via the external symbolizer `resolve`.
The returned list is the sequence of emitted log lines, all at critical
severity. -/
def logTrace (resolve : Addr → Option String) (t : BackwardsTrace) : List String :=
  "Backtrace:" :: (renderedIndices t).map (frameLine resolve t)

/-- `logFault(signame, addr)`: `ENVOY_LOG(critical, "Caught {}, suspect
faulting address {}", signame, addr)`.  Takes the trace object (it is a
method) but reads none of its fields. -/
def logFault (t : BackwardsTrace) (signame : String) (addr : Addr) : List String :=
  ["Caught " ++ signame ++ ", suspect faulting address " ++ toString addr]

/-- `capture` as a state transformer: mutates the trace, emits nothing. -/
def captureOp (ctx : List Addr) (t : BackwardsTrace) : BackwardsTrace × List String :=
  (capture ctx t, [])

/-- `captureFrom` as a state transformer: mutates the trace, emits nothing. -/
def captureFromOp (context : List Addr) (t : BackwardsTrace) : BackwardsTrace × List String :=
  (captureFrom context t, [])

/-- `logTrace` as a state transformer: the method body assigns no field,
so the state component is returned as-is; the emitted lines are the
output component. -/
def logTraceOp (resolve : Addr → Option String) (t : BackwardsTrace) :
    BackwardsTrace × List String :=
  (t, logTrace resolve t)

/-- `logFault` as a state transformer: the method body assigns no field. -/
def logFaultOp (signame : String) (addr : Addr) (t : BackwardsTrace) :
    BackwardsTrace × List String :=
  (t, logFault t signame addr)

/-- The valid frames of a trace: `frames[0 .. depth)`. -/
def framesList (t : BackwardsTrace) : List Addr :=
  (List.range t.stack_depth_.toNat).map t.stack_trace_

/-- `n` successive `logTrace` calls on the same object, threading the
state and collecting each call's emitted lines. -/
def renderSeq (resolve : Addr → Option String) : Nat → BackwardsTrace →
    BackwardsTrace × List (List String)
  | 0, t => (t, [])
  | n + 1, t =>
    let s := logTraceOp resolve t
    let r := renderSeq resolve n s.1
    (r.1, s.2 :: r.2)

/-- The states a `BackwardsTrace` object can be in: freshly constructed
(arbitrary buffer garbage, depth 0), or obtained from a reachable state by
any of the four operations. -/
inductive Reachable : BackwardsTrace → Prop where
  | init (g : Nat → Addr) : Reachable (mkTrace g)
  | cap (ctx : List Addr) {t : BackwardsTrace} :
      Reachable t → Reachable (captureOp ctx t).1
  | capFrom (context : List Addr) {t : BackwardsTrace} :
      Reachable t → Reachable (captureFromOp context t).1
  | render (resolve : Addr → Option String) {t : BackwardsTrace} :
      Reachable t → Reachable (logTraceOp resolve t).1
  | fault (signame : String) (addr : Addr) {t : BackwardsTrace} :
      Reachable t → Reachable (logFaultOp signame addr t).1

/- ### Helper lemmas -/

lemma getStackTrace_length (m k : Nat) (ctx : List Addr) :
    (getStackTrace m k ctx).length = min (ctx.length - k) m := by
  simp [getStackTrace, Nat.min_comm]

lemma capture_depth (ctx : List Addr) (t : BackwardsTrace) :
    (capture ctx t).stack_depth_ = ((min (ctx.length - 1) MaxStackDepth : Nat) : Int) := by
  simp [capture, getStackTrace_length]

lemma captureFrom_depth (context : List Addr) (t : BackwardsTrace) :
    (captureFrom context t).stack_depth_ =
      ((min (context.length - 1) MaxStackDepth : Nat) : Int) := by
  simp [captureFrom, getStackTraceWithContext, Nat.min_comm]

lemma writeFrames_lt (old : Nat → Addr) (fs : List Addr) {i : Nat} (h : i < fs.length) :
    writeFrames old fs i = fs.get ⟨i, h⟩ := by
  simp [writeFrames, h]

lemma map_range_writeFrames (old : Nat → Addr) (fs : List Addr) :
    (List.range fs.length).map (writeFrames old fs) = fs := by
  apply List.ext_get (by simp)
  intro i h1 h2
  simp only [List.get_eq_getElem, List.getElem_map, List.getElem_range]
  exact writeFrames_lt old fs h2

lemma framesList_capture (ctx : List Addr) (t : BackwardsTrace) :
    framesList (capture ctx t) = getStackTrace MaxStackDepth 1 ctx := by
  unfold framesList capture
  simp only [Int.toNat_ofNat]
  exact map_range_writeFrames _ _

lemma framesList_captureFrom (context : List Addr) (t : BackwardsTrace) :
    framesList (captureFrom context t) = getStackTraceWithContext MaxStackDepth 1 context := by
  unfold framesList captureFrom
  simp only [Int.toNat_ofNat]
  exact map_range_writeFrames _ _

/- ### C1 -/

/-- C1: `capture()` sets `stack_depth_` to the minimum of the actual stack
depth of the calling context (with the `capture()` call itself excluded by
the skip count of one) and `MaxStackDepth = 64` — in particular never more
than 64 — and `frames[0 .. depth)` are exactly the return addresses of the
calling context, innermost frame first, starting at the capturer's
immediate caller. -/
theorem capture_postcondition (ctx : List Addr) (t : BackwardsTrace) :
    (capture ctx t).stack_depth_ = ((min (ctx.length - 1) MaxStackDepth : Nat) : Int) ∧
    (capture ctx t).stack_depth_ ≤ 64 ∧
    framesList (capture ctx t) = (ctx.drop 1).take MaxStackDepth := by
  refine ⟨capture_depth ctx t, ?_, framesList_capture ctx t⟩
  rw [capture_depth ctx t]
  exact_mod_cast Nat.min_le_right _ _

/- ### Further helper lemmas -/

lemma frameLine_eq_elim (resolve : Addr → Option String) (t : BackwardsTrace) (i : Nat) :
    frameLine resolve t i =
      (resolve (t.stack_trace_ i)).elim (addrLine i (t.stack_trace_ i)) (symLine i) := by
  unfold frameLine
  cases resolve (t.stack_trace_ i) <;> rfl

lemma logTrace_congr (resolve1 resolve2 : Addr → Option String) (t1 t2 : BackwardsTrace)
    (hd : t1.stack_depth_ = t2.stack_depth_)
    (hf : ∀ i, i < t1.stack_depth_.toNat → t1.stack_trace_ i = t2.stack_trace_ i)
    (hr : ∀ i, i < t1.stack_depth_.toNat →
      resolve1 (t1.stack_trace_ i) = resolve2 (t1.stack_trace_ i)) :
    logTrace resolve1 t1 = logTrace resolve2 t2 := by
  unfold logTrace renderedIndices
  rw [← hd]
  congr 1
  apply List.map_congr_left
  intro i hi
  rw [List.mem_range] at hi
  have e1 := hf i hi
  have e2 := hr i hi
  rw [e1] at e2
  unfold frameLine
  rw [e1, e2]

lemma logTrace_capture_indep (ctx : List Addr) (t1 t2 : BackwardsTrace)
    (resolve : Addr → Option String) :
    logTrace resolve (capture ctx t1) = logTrace resolve (capture ctx t2) := by
  have hlen : ∀ t : BackwardsTrace,
      (capture ctx t).stack_depth_.toNat = (getStackTrace MaxStackDepth 1 ctx).length := by
    intro t
    simp [capture]
  apply logTrace_congr
  · rw [capture_depth, capture_depth]
  · intro i hi
    rw [hlen t1] at hi
    exact (writeFrames_lt t1.stack_trace_ _ hi).trans (writeFrames_lt t2.stack_trace_ _ hi).symm
  · intro i hi
    rfl

lemma depth_zero_logTrace (resolve : Addr → Option String) {t : BackwardsTrace}
    (h : t.stack_depth_ = 0) : logTrace resolve t = ["Backtrace:"] := by
  simp [logTrace, renderedIndices, h]

/- ### Concrete objects used by the witnesses -/

/-- Arbitrary frame-buffer garbage for a freshly constructed trace. -/
def gW : Nat → Addr := fun _ => 0

/-- A concrete trace: captured from a raw walk of three frames, so its
depth is 2 and its valid frames are the addresses 2 and 3. -/
def tW : BackwardsTrace := capture [1, 2, 3] (mkTrace gW)

/-- A second concrete trace with the same depth and the same valid
frames as `tW`, but different buffer garbage and a different excluded
innermost frame. -/
def tW2 : BackwardsTrace := capture [9, 2, 3] (mkTrace fun _ => 7)

/-- A concrete resolver: address 2 has the symbol `f`; no other address
resolves. -/
def rW : Addr → Option String := fun a => if a = 2 then some "f" else none

/-- A resolver written differently from `rW` but returning the same
result at every address. -/
def rW2 : Addr → Option String :=
  fun a => if a ≤ 2 then (if a = 2 then some "f" else none) else none

/- ### C2 -/

/-- C2: `logTrace()` emits, after the header, exactly one line per frame
index `i` in `[0, depth)` — so the emitted list has `depth + 1` lines and
the line at position `i + 1` carries frame index `i`, giving the
monotonically increasing indices `0, 1, ..., depth - 1` in capture
order — and that line is the symbol line `#i: out` when the resolver
succeeds on `frames[i]` (`symLine`), or the raw-address line formed from
`frames[i]` itself when resolution fails (`addrLine`); resolution failure
produces a normal line, never an error. -/
theorem logTrace_per_frame (resolve : Addr → Option String) (t : BackwardsTrace) :
    (logTrace resolve t).length = t.stack_depth_.toNat + 1 ∧
    (logTrace resolve t)[0]? = some "Backtrace:" ∧
    ∀ i : Nat, i < t.stack_depth_.toNat →
      (logTrace resolve t)[i + 1]? =
        some ((resolve (t.stack_trace_ i)).elim (addrLine i (t.stack_trace_ i)) (symLine i)) := by
  refine ⟨by simp [logTrace, renderedIndices], by simp [logTrace], ?_⟩
  intro i hi
  simp [logTrace, renderedIndices, hi, frameLine_eq_elim]

/-- C2 witness: on the concrete trace `tW` (depth 2) with resolver `rW`,
frame 0 is within range and its line sits at position 1 of the output. -/
theorem logTrace_per_frame_witness :
    0 < tW.stack_depth_.toNat ∧
    (logTrace rW tW)[0 + 1]? =
      some ((rW (tW.stack_trace_ 0)).elim (addrLine 0 (tW.stack_trace_ 0)) (symLine 0)) :=
  ⟨by decide, (logTrace_per_frame rW tW).2.2 0 (by decide)⟩

/- ### C3 -/

/-- C3: in every reachable state of a trace — after construction and any
sequence of `capture`, `captureFrom`, `logTrace`, `logFault` calls — the
depth satisfies `0 ≤ stack_depth_ ≤ MaxStackDepth = 64`, and every frame
index the renderer reads is strictly below the depth (frames at indices
`≥ depth` are never read or rendered). -/
theorem reachable_depth_invariant {t : BackwardsTrace} (h : Reachable t) :
    0 ≤ t.stack_depth_ ∧ t.stack_depth_ ≤ 64 ∧
    ∀ i ∈ renderedIndices t, (i : Int) < t.stack_depth_ := by
  have bounds : 0 ≤ t.stack_depth_ ∧ t.stack_depth_ ≤ 64 := by
    induction h with
    | init g => exact ⟨le_refl 0, by norm_num [mkTrace]⟩
    | cap ctx _ _ =>
      rw [captureOp]
      rw [capture_depth]
      constructor
      · exact_mod_cast Nat.zero_le _
      · exact_mod_cast Nat.min_le_right _ MaxStackDepth
    | capFrom context _ _ =>
      rw [captureFromOp]
      rw [captureFrom_depth]
      constructor
      · exact_mod_cast Nat.zero_le _
      · exact_mod_cast Nat.min_le_right _ MaxStackDepth
    | render resolve _ ih => exact ih
    | fault signame addr _ ih => exact ih
  refine ⟨bounds.1, bounds.2, ?_⟩
  intro i hi
  rw [renderedIndices, List.mem_range] at hi
  omega

/-- C3 witness: the concrete trace `tW` is reachable (constructed, then
captured once) and satisfies the depth bounds and the read-bound
property. -/
theorem reachable_depth_invariant_witness :
    Reachable tW ∧ 0 ≤ tW.stack_depth_ ∧ tW.stack_depth_ ≤ 64 ∧
    ∀ i ∈ renderedIndices tW, (i : Int) < tW.stack_depth_ := by
  have h : Reachable tW := Reachable.cap [1, 2, 3] (Reachable.init gW)
  exact ⟨h, reachable_depth_invariant h⟩

/- ### C4 -/

/-- C4: for every trace whose depth is 0 — and a freshly constructed
trace is such a trace, whatever garbage `g` its buffer holds —
`logTrace()` emits exactly the one header line `Backtrace:` and no frame
lines. -/
theorem logTrace_empty_trace (resolve : Addr → Option String) (t : BackwardsTrace)
    (g : Nat → Addr) (h : t.stack_depth_ = 0) :
    logTrace resolve t = ["Backtrace:"] ∧
    (mkTrace g).stack_depth_ = 0 ∧
    logTrace resolve (mkTrace g) = ["Backtrace:"] :=
  ⟨depth_zero_logTrace resolve h, rfl, depth_zero_logTrace resolve rfl⟩

/-- C4 witness: a freshly constructed trace has depth 0 and renders to
the header line alone. -/
theorem logTrace_empty_trace_witness :
    (mkTrace gW).stack_depth_ = 0 ∧ logTrace rW (mkTrace gW) = ["Backtrace:"] :=
  ⟨rfl, (logTrace_empty_trace rW (mkTrace gW) gW rfl).1⟩

/- ### C5 -/

/-- C5: for the call stack `main → f → g → capture()` — whose raw walk is
`[rg, rf, rm]` with `rg` the return address for the `capture()` call
inside `g`, `rf` the return address in `f`, and `rm` the return address
at `main`'s call into `f` — `capture()` yields depth 2, frame 0 = `rf`
and frame 1 = `rm`: innermost first, `capture()` itself excluded. -/
theorem capture_scenario_main_f_g (rg rf rm : Addr) (t : BackwardsTrace) :
    (capture [rg, rf, rm] t).stack_depth_ = 2 ∧
    (capture [rg, rf, rm] t).stack_trace_ 0 = rf ∧
    (capture [rg, rf, rm] t).stack_trace_ 1 = rm ∧
    framesList (capture [rg, rf, rm] t) = [rf, rm] := by
  refine ⟨rfl, rfl, rfl, ?_⟩
  rw [framesList_capture]
  rfl

/- ### C6 -/

/-- C6: `logFault(signame, addr)` emits exactly one line, that line
contains both the signal name and the faulting address, the output does
not depend on the trace object's captured frames or depth (any other
trace `u` produces the same line), and the trace state is not mutated. -/
theorem logFault_single_line (t : BackwardsTrace) (signame : String) (addr : Addr) :
    (logFault t signame addr).length = 1 ∧
    (∃ pre mid, logFault t signame addr = [pre ++ signame ++ mid ++ toString addr]) ∧
    (∀ u : BackwardsTrace, logFault u signame addr = logFault t signame addr) ∧
    (logFaultOp signame addr t).1 = t :=
  ⟨rfl, ⟨"Caught ", ", suspect faulting address ", rfl⟩, fun _ => rfl, rfl⟩

/- ### C7 -/

/-- C7: no operation returns an error: when the underlying stack walk
cannot proceed (it yields at most the one frame that the skip count
discards), `capture()` and `captureFrom()` set the depth to 0, and that
empty state renders normally — `logTrace()` still emits its header
line. -/
theorem no_failure_mode (ctx : List Addr) (t : BackwardsTrace)
    (resolve : Addr → Option String) (h : ctx.length ≤ 1) :
    (capture ctx t).stack_depth_ = 0 ∧
    (captureFrom ctx t).stack_depth_ = 0 ∧
    logTrace resolve (capture ctx t) = ["Backtrace:"] ∧
    logTrace resolve (captureFrom ctx t) = ["Backtrace:"] := by
  have h1 : (capture ctx t).stack_depth_ = 0 := by
    rw [capture_depth]
    have : min (ctx.length - 1) MaxStackDepth = 0 := by
      have : ctx.length - 1 = 0 := by omega
      simp [this]
    exact_mod_cast congrArg (Nat.cast : Nat → Int) this
  have h2 : (captureFrom ctx t).stack_depth_ = 0 := by
    rw [captureFrom_depth]
    have : min (ctx.length - 1) MaxStackDepth = 0 := by
      have : ctx.length - 1 = 0 := by omega
      simp [this]
    exact_mod_cast congrArg (Nat.cast : Nat → Int) this
  exact ⟨h1, h2, depth_zero_logTrace resolve h1, depth_zero_logTrace resolve h2⟩

/-- C7 witness: a stack walk that yields nothing at all leaves a depth-0
trace that still renders its header line. -/
theorem no_failure_mode_witness :
    ([] : List Addr).length ≤ 1 ∧
    (capture [] (mkTrace gW)).stack_depth_ = 0 ∧
    logTrace rW (capture [] (mkTrace gW)) = ["Backtrace:"] := by
  have h := no_failure_mode [] (mkTrace gW) rW (by decide)
  exact ⟨by decide, h.1, h.2.2.1⟩

/- ### C8 -/

/-- C8: `capture()` overwrites: the depth and the valid frames after a
capture are determined solely by the current raw walk and are independent
of the prior state of the trace — two traces with arbitrary different
histories capture to the same depth, the same `frames[0..depth)` and the
same rendered output, and a second capture from the same context renders
identically to the first. -/
theorem capture_overwrites_prior (ctx : List Addr) (t1 t2 : BackwardsTrace)
    (resolve : Addr → Option String) :
    (capture ctx t1).stack_depth_ = (capture ctx t2).stack_depth_ ∧
    framesList (capture ctx t1) = framesList (capture ctx t2) ∧
    logTrace resolve (capture ctx t1) = logTrace resolve (capture ctx t2) ∧
    logTrace resolve (capture ctx (capture ctx t1)) = logTrace resolve (capture ctx t1) := by
  refine ⟨?_, ?_, logTrace_capture_indep ctx t1 t2 resolve,
    logTrace_capture_indep ctx (capture ctx t1) t1 resolve⟩
  · rw [capture_depth, capture_depth]
  · rw [framesList_capture, framesList_capture]

/- ### C9 -/

/-- C9: rendering is read-only: `logTrace()` and `logFault()` return the
trace state unchanged, and any number `n` of successive `logTrace` calls
after a capture all observe the same state and each emit exactly the same
line sequence. -/
theorem render_readonly (resolve : Addr → Option String) (t : BackwardsTrace)
    (signame : String) (addr : Addr) (n : Nat) :
    (logTraceOp resolve t).1 = t ∧
    (logFaultOp signame addr t).1 = t ∧
    renderSeq resolve n t = (t, List.replicate n (logTrace resolve t)) := by
  refine ⟨rfl, rfl, ?_⟩
  induction n with
  | zero => rfl
  | succ n ih => simp [renderSeq, logTraceOp, ih, List.replicate_succ]

/- ### C10 -/

/-- C10: `logTrace()` is deterministic: two traces with equal depth and
equal frames below that depth, rendered with resolvers that agree
everywhere, produce identical line sequences — same count, same indices,
same text. -/
theorem logTrace_deterministic (resolve1 resolve2 : Addr → Option String)
    (t1 t2 : BackwardsTrace)
    (hd : t1.stack_depth_ = t2.stack_depth_)
    (hf : ∀ i, i < t1.stack_depth_.toNat → t1.stack_trace_ i = t2.stack_trace_ i)
    (hr : ∀ a : Addr, resolve1 a = resolve2 a) :
    logTrace resolve1 t1 = logTrace resolve2 t2 :=
  logTrace_congr resolve1 resolve2 t1 t2 hd hf (fun i _ => hr (t1.stack_trace_ i))

/-- C10 witness: the concrete traces `tW` and `tW2` share depth 2 and the
same valid frames, and the resolvers `rW` and `rW2` agree on every
address, so the two renders emit identical lines. -/
theorem logTrace_deterministic_witness :
    tW.stack_depth_ = tW2.stack_depth_ ∧ logTrace rW tW = logTrace rW2 tW2 := by
  have hr : ∀ a : Addr, rW a = rW2 a := by
    intro a
    by_cases h : a = 2 <;> simp [rW, rW2, h]
  exact ⟨by decide, logTrace_deterministic rW rW2 tW tW2 (by decide) (by decide) hr⟩

end Envoy
